import Mathlib

set_option autoImplicit false

/-!
Verification development for the multibank aggregation backend
(`backend/app`): a shallow embedding of the JSON handling, normalizers,
token cache, consent store, account linking, aggregation orchestrator and
analytics net-worth selection, together with theorems about the
specification claims.

Modelling conventions:
* Python JSON-like values are modelled by `Json` (integers only for the
  numeric case; no claim depends on float payload values).
* Python truthiness is `Json.truthy`; `dict.get(k)` is `Json.get` returning
  `Option Json` (`none` for a missing key or a non-dict receiver).
* Network calls are scripted: each bank's behaviour is a record of outcomes,
  and the orchestrator emits an explicit event trace (token acquisition,
  data fetches, consent requests) so that call-count properties can be
  stated.
-/

/-- JSON-like values as produced by `response.json()` in the Python code. -/
inductive Json where
  | null
  | bool (b : Bool)
  | str (s : String)
  | num (n : Int)
  | arr (elems : List Json)
  | obj (fields : List (String × Json))
deriving Repr, Inhabited

mutual

/-- Decidable equality for `Json` (the nested inductive prevents deriving). -/
def Json.decEq : (a b : Json) → Decidable (a = b)
  | .null, .null => .isTrue rfl
  | .bool x, .bool y =>
    if h : x = y then .isTrue (by rw [h]) else .isFalse (by simp [h])
  | .str x, .str y =>
    if h : x = y then .isTrue (by rw [h]) else .isFalse (by simp [h])
  | .num x, .num y =>
    if h : x = y then .isTrue (by rw [h]) else .isFalse (by simp [h])
  | .arr xs, .arr ys =>
    match Json.decEqList xs ys with
    | .isTrue h => .isTrue (by rw [h])
    | .isFalse h => .isFalse (by simp [h])
  | .obj xs, .obj ys =>
    match Json.decEqFields xs ys with
    | .isTrue h => .isTrue (by rw [h])
    | .isFalse h => .isFalse (by simp [h])
  | .null, .bool _ => .isFalse (by simp)
  | .null, .str _ => .isFalse (by simp)
  | .null, .num _ => .isFalse (by simp)
  | .null, .arr _ => .isFalse (by simp)
  | .null, .obj _ => .isFalse (by simp)
  | .bool _, .null => .isFalse (by simp)
  | .bool _, .str _ => .isFalse (by simp)
  | .bool _, .num _ => .isFalse (by simp)
  | .bool _, .arr _ => .isFalse (by simp)
  | .bool _, .obj _ => .isFalse (by simp)
  | .str _, .null => .isFalse (by simp)
  | .str _, .bool _ => .isFalse (by simp)
  | .str _, .num _ => .isFalse (by simp)
  | .str _, .arr _ => .isFalse (by simp)
  | .str _, .obj _ => .isFalse (by simp)
  | .num _, .null => .isFalse (by simp)
  | .num _, .bool _ => .isFalse (by simp)
  | .num _, .str _ => .isFalse (by simp)
  | .num _, .arr _ => .isFalse (by simp)
  | .num _, .obj _ => .isFalse (by simp)
  | .arr _, .null => .isFalse (by simp)
  | .arr _, .bool _ => .isFalse (by simp)
  | .arr _, .str _ => .isFalse (by simp)
  | .arr _, .num _ => .isFalse (by simp)
  | .arr _, .obj _ => .isFalse (by simp)
  | .obj _, .null => .isFalse (by simp)
  | .obj _, .bool _ => .isFalse (by simp)
  | .obj _, .str _ => .isFalse (by simp)
  | .obj _, .num _ => .isFalse (by simp)
  | .obj _, .arr _ => .isFalse (by simp)

/-- Decidable equality for lists of `Json`. -/
def Json.decEqList : (a b : List Json) → Decidable (a = b)
  | [], [] => .isTrue rfl
  | [], _ :: _ => .isFalse (by simp)
  | _ :: _, [] => .isFalse (by simp)
  | x :: xs, y :: ys =>
    match Json.decEq x y with
    | .isTrue h1 =>
      match Json.decEqList xs ys with
      | .isTrue h2 => .isTrue (by rw [h1, h2])
      | .isFalse h2 => .isFalse (by simp [h2])
    | .isFalse h1 => .isFalse (by simp [h1])

/-- Decidable equality for lists of key-value pairs. -/
def Json.decEqFields : (a b : List (String × Json)) → Decidable (a = b)
  | [], [] => .isTrue rfl
  | [], _ :: _ => .isFalse (by simp)
  | _ :: _, [] => .isFalse (by simp)
  | (k1, v1) :: xs, (k2, v2) :: ys =>
    if hk : k1 = k2 then
      match Json.decEq v1 v2 with
      | .isTrue h1 =>
        match Json.decEqFields xs ys with
        | .isTrue h2 => .isTrue (by rw [hk, h1, h2])
        | .isFalse h2 => .isFalse (by simp [h2])
      | .isFalse h1 => .isFalse (by simp [h1])
    else .isFalse (by simp [hk])

end

instance : DecidableEq Json := Json.decEq

/-- Python `dict.get(key)`: `none` when the key is missing or the receiver
is not a mapping. -/
def Json.get : Json → String → Option Json
  | .obj kvs, k => (kvs.find? (fun p => p.1 = k)).map (fun p => p.2)
  | _, _ => none

/-- Python truthiness of a JSON value. -/
def Json.truthy : Json → Bool
  | .null => false
  | .bool b => b
  | .str s => !s.isEmpty
  | .num n => n != 0
  | .arr xs => !xs.isEmpty
  | .obj kvs => !kvs.isEmpty

/-- Truthiness of an optional value (`None` is falsy). -/
def otruthy (o : Option Json) : Bool :=
  match o with
  | some v => v.truthy
  | none => false

/-- Python `x or y` where `x` is a `dict.get` result and `y` a default. -/
def pyOr (a : Option Json) (dflt : Json) : Json :=
  match a with
  | some v => if v.truthy then v else dflt
  | none => dflt

mutual

/-- Python `repr` of a JSON value (string escaping is not modelled; no claim
depends on the rendering of containers). -/
def pyRepr : Json → String
  | .null => "None"
  | .bool true => "True"
  | .bool false => "False"
  | .num n => toString n
  | .str s => (Char.ofNat 39).toString ++ s ++ (Char.ofNat 39).toString
  | .arr xs => "[" ++ pyReprList xs ++ "]"
  | .obj kvs => "\x7b" ++ pyReprFields kvs ++ "\x7d"

/-- Comma-separated reprs of list elements. -/
def pyReprList : List Json → String
  | [] => ""
  | [x] => pyRepr x
  | x :: xs => pyRepr x ++ ", " ++ pyReprList xs

/-- Comma-separated reprs of dict entries. -/
def pyReprFields : List (String × Json) → String
  | [] => ""
  | [(k, v)] =>
    (Char.ofNat 39).toString ++ k ++ (Char.ofNat 39).toString ++ ": " ++ pyRepr v
  | (k, v) :: kvs =>
    (Char.ofNat 39).toString ++ k ++ (Char.ofNat 39).toString ++ ": " ++ pyRepr v
      ++ ", " ++ pyReprFields kvs

end

/-- Python `str` of a JSON value: identity on strings, `repr` otherwise. -/
def pyStr : Json → String
  | .str s => s
  | j => pyRepr j

/-- `needle` occurs at the start of `hay` (character lists). -/
def charsStartWith : List Char → List Char → Bool
  | _, [] => true
  | [], _ :: _ => false
  | h :: hs, n :: ns => h = n && charsStartWith hs ns

/-- Python `needle in hay` substring test (character lists). -/
def charsContain (hay needle : List Char) : Bool :=
  match hay with
  | [] => needle.isEmpty
  | _ :: rest => charsStartWith hay needle || charsContain rest needle

/-- First value bound to `k` in an association list. -/
def alGet {κ α : Type} [DecidableEq κ] (l : List (κ × α)) (k : κ) : Option α :=
  (l.find? (fun p => p.1 = k)).map (fun p => p.2)

/-- Python dict assignment `d[k] = v`: replace the first binding of `k`, or
append a new one. -/
def alSet {κ α : Type} [DecidableEq κ] : List (κ × α) → κ → α → List (κ × α)
  | [], k, v => [(k, v)]
  | (k0, v0) :: rest, k, v =>
    if k0 = k then (k, v) :: rest else (k0, v0) :: alSet rest k v

/-- Python `d.pop(k, None)` / `del d[k]`: drop the first binding of `k`. -/
def alErase {κ α : Type} [DecidableEq κ] : List (κ × α) → κ → List (κ × α)
  | [], _ => []
  | (k0, v0) :: rest, k =>
    if k0 = k then rest else (k0, v0) :: alErase rest k

/-- Unified account model (`app/core/types.py: Account`). Fields hold the raw
values the Python constructor receives; all claim-relevant flows pass
string-valued payloads. -/
structure Account where
  account_id : Json
  bank : String
  currency : Json
  account_type : Json
  nickname : Json
  servicer : Json
deriving Repr, DecidableEq

/-- Unified balance model (`app/core/types.py: Balance`). `amount` is a string
(the Python code applies `str(...)`). -/
structure Balance where
  account_id : Json
  amount : String
  currency : Json
  balance_type : Json
deriving Repr, DecidableEq

/-- Unified transaction model (`app/core/types.py: Transaction`). -/
structure Transaction where
  transaction_id : Json
  account_id : Json
  amount : String
  currency : Json
  booking_date : Json
  description : Json
  mcc : Json
deriving Repr, DecidableEq

/-- `AggregationService._normalize_account` (aggregation.py 36-59). -/
def normalizeAccount (d : Json) (bankCode : String) : Account :=
  { account_id := pyOr (d.get "accountId") ((d.get "account_id").getD (.str ""))
    bank := bankCode
    currency := (d.get "currency").getD (.str "RUB")
    account_type :=
      pyOr (d.get "accountType") ((d.get "account_type").getD (.str "Personal"))
    nickname := (d.get "nickname").getD .null
    servicer := (d.get "servicer").getD .null }

/-- `AggregationService._normalize_balance` (aggregation.py 61-90): the
`amount` field may be a scalar or a nested mapping with `amount`/`currency`. -/
def normalizeBalance (d : Json) (accountId : Json) : Balance :=
  let bt := pyOr (d.get "balanceType") ((d.get "balance_type").getD (.str "interimBooked"))
  let av := (d.get "amount").getD (.str "0")
  match av with
  | .obj kvs =>
    { account_id := accountId
      amount := pyStr (((Json.obj kvs).get "amount").getD (.str "0"))
      currency := pyOr ((Json.obj kvs).get "currency") ((d.get "currency").getD (.str "RUB"))
      balance_type := bt }
  | _ =>
    { account_id := accountId
      amount := pyStr av
      currency := (d.get "currency").getD (.str "RUB")
      balance_type := bt }

/-- `AggregationService._normalize_transaction` (aggregation.py 92-115). -/
def normalizeTransaction (d : Json) (accountId : Json) : Transaction :=
  { transaction_id := pyOr (d.get "transactionId") ((d.get "transaction_id").getD (.str ""))
    account_id := accountId
    amount := pyStr ((d.get "amount").getD (.str "0"))
    currency := (d.get "currency").getD (.str "RUB")
    booking_date :=
      pyOr (d.get "bookingDateTime")
        ((d.get "booking_date_time").getD ((d.get "booking_date").getD (.str "")))
    description := (d.get "description").getD .null
    mcc := (d.get "mcc").getD .null }

/-- Accounts envelope unwrapping (aggregation.py 172-210, repeated at
265-305): prefer `data.account` (wrapping a single mapping), fall back to the
top-level `accounts` field, and coerce any non-list result to the empty
list. -/
def unwrapAccounts (resp : Json) : List Json :=
  let fromData : List Json :=
    match resp.get "data" with
    | some d =>
      if d.truthy then
        match d with
        | .obj _ =>
          match d.get "account" with
          | some a =>
            if a.truthy then
              match a with
              | .arr xs => xs
              | .obj kvs => [Json.obj kvs]
              | _ => []
            else []
          | none => []
        | _ => []
      else []
    | none => []
  if fromData.isEmpty then
    match resp.get "accounts" with
    | some (.arr xs) => xs
    | some _ => []
    | none => []
  else fromData

/-- Balances envelope unwrapping (aggregation.py 504-517, repeated at
550-560): `data` defaults to `{}`; when it is a mapping, take
`data.balances`, else `data.balance` (wrapping a single mapping); the
top-level `balances` field is consulted only when `data` is present and not
a mapping. -/
def unwrapBalances (resp : Json) : List Json :=
  let dataSection := (resp.get "data").getD (.obj [])
  match dataSection with
  | .obj _ =>
    let bl := (dataSection.get "balances").getD ((dataSection.get "balance").getD (.arr []))
    match bl with
    | .obj kvs => [Json.obj kvs]
    | .arr xs => xs
    | _ => []
  | _ =>
    match resp.get "balances" with
    | some (.arr xs) => xs
    | some _ => []
    | none => []

/-- Transactions envelope unwrapping (aggregation.py 731-744, repeated at
779-789): same shape as the balances unwrapper with
`transactions`/`transaction`. -/
def unwrapTransactions (resp : Json) : List Json :=
  let dataSection := (resp.get "data").getD (.obj [])
  match dataSection with
  | .obj _ =>
    let tl := (dataSection.get "transactions").getD ((dataSection.get "transaction").getD (.arr []))
    match tl with
    | .obj kvs => [Json.obj kvs]
    | .arr xs => xs
    | _ => []
  | _ =>
    match resp.get "transactions" with
    | some (.arr xs) => xs
    | some _ => []
    | none => []

/-- Failure signal of a bank-client call (`app/core/exceptions.py`):
`ConsentRequiredError` or the generic `BankAPIError` with a status code. -/
inductive ClientFailure where
  | consentRequired
  | bankAPI (status : Int)
deriving Repr, DecidableEq

/-- Error mapping of `BaseBankClient.get_accounts` (base_client.py 180-193)
for a non-2xx HTTP response: a 403 whose body mentions a consent problem
raises `ConsentRequiredError`, anything else `BankAPIError`. -/
def accountsFailureOf (status : Int) (body : String) : ClientFailure :=
  if status = 403
      && (charsContain body.toList "CONSENT_REQUIRED".toList
          || charsContain (body.map Char.toLower).toList "consent".toList) then
    .consentRequired
  else .bankAPI status

/-- Error mapping of `BaseBankClient.get_balances` (base_client.py 281-285)
for a non-2xx HTTP response: every `HTTPStatusError` becomes `BankAPIError`;
the body is not inspected and `ConsentRequiredError` is never raised. -/
def balancesFailureOf (status : Int) (body : String) : ClientFailure :=
  let _ := body
  .bankAPI status

/-- Error mapping of `BaseBankClient.get_transactions` (base_client.py
342-346): identical to the balances mapping. -/
def transactionsFailureOf (status : Int) (body : String) : ClientFailure :=
  let _ := body
  .bankAPI status

/-- A cached token entry (`token_service.py: TokenCache.set`, 38-54). Times
are integer seconds; `datetime.now()` is passed explicitly. -/
structure CachedToken where
  access_token : Json
  token_type : Json
  client_id : Json
  expires_in : Int
  expires_at : Int
deriving Repr, DecidableEq

/-- The token cache state: one entry per bank code. -/
abbrev TokenCacheState := List (String × CachedToken)

/-- `TokenCache.get` (token_service.py 16-36) at time `now`: returns the
entry if present and unexpired; an expired entry is deleted by the read
itself (lazy eviction) and `none` is returned. `expires_at` is always a
(truthy) datetime in entries created by `set`, so the Python truthiness
guard on it is omitted. -/
def cacheGet (st : TokenCacheState) (bank : String) (now : Int) :
    Option CachedToken × TokenCacheState :=
  match alGet st bank with
  | none => (none, st)
  | some e => if now ≥ e.expires_at then (none, alErase st bank) else (some e, st)

/-- `TokenCache.set` (token_service.py 38-54) at time `now`:
`expires_at = now + expires_in - 60`. Returns `none` when the token response
lacks `access_token` (Python `KeyError`) or carries a non-integer
`expires_in` (Python `timedelta` failure). -/
def cacheSet (st : TokenCacheState) (bank : String) (tokenData : Json) (now : Int) :
    Option TokenCacheState :=
  match tokenData.get "access_token", (tokenData.get "expires_in").getD (.num 86400) with
  | some tok, .num ei =>
    some (alSet st bank
      { access_token := tok
        token_type := (tokenData.get "token_type").getD (.str "bearer")
        client_id := (tokenData.get "client_id").getD .null
        expires_in := ei
        expires_at := now + ei - 60 })
  | _, _ => none

/-- The consent-id store (`consent_service.py: ConsentService._consent_ids`),
keyed by `(client_id, bank_code)`. -/
abbrev ConsentStore := List ((String × String) × Json)

/-- The store update performed inside
`ConsentService.request_accounts_consent` (consent_service.py 61-67): the
consent id is stored when it is truthy and the response status equals
`"approved"`; the `auto_approved` flag is not consulted. -/
def consentStoreAfter (store : ConsentStore) (clientId bank : String) (resp : Json) :
    ConsentStore :=
  match resp.get "consent_id" with
  | some cid =>
    if cid.truthy ∧ (resp.get "status").getD (.str "") = .str "approved" then
      alSet store (clientId, bank) cid
    else store
  | none => store

/-- `ConsentService.get_consent_id` (consent_service.py 73-84). -/
def getConsentId (store : ConsentStore) (clientId bank : String) : Option Json :=
  alGet store (clientId, bank)

/-- `ConsentService.clear_consent_id` (consent_service.py 86-94). -/
def clearConsentId (store : ConsentStore) (clientId bank : String) : ConsentStore :=
  alErase store (clientId, bank)

/-- Outcome of one `ConsentService.request_accounts_consent` call as seen by
the aggregation code: `raw` is the gateway's consent response (`none` when
the call raised or timed out). A non-mapping response makes the
`consent_response["bank"] = bank_code` mutation raise, so it also counts as
a failure and leaves the store untouched; otherwise the `bank` key is added
and the store update of consent_service.py 61-67 is applied. -/
def consentResult (raw : Option Json) (clientId bank : String) (store : ConsentStore) :
    Option Json × ConsentStore :=
  match raw with
  | some (.obj kvs) =>
    let resp := Json.obj (alSet kvs "bank" (.str bank))
    (some resp, consentStoreAfter store clientId bank resp)
  | _ => (none, store)

/-- A linked account record as built by
`AccountLinkingService.link_account` (account_linking.py 36-44). The
`nickname` key is always present and truthy in records built by the
service. -/
structure LinkedAccount where
  id : String
  bank : String
  account_number : String
  account_id : Json
  nickname : String
  linked_at : String
  active : Bool
deriving Repr, DecidableEq

/-- The record literal of account_linking.py 36-44:
`id = f"{bank}-{account_number}"`, `nickname = nickname or
f"{bank.upper()} Account"`, `active = True`. -/
def mkLinkedAccount (bank accountNumber : String) (accountId : Option String)
    (nickname : Option String) (now : String) : LinkedAccount :=
  { id := bank ++ "-" ++ accountNumber
    bank := bank
    account_number := accountNumber
    account_id := match accountId with | some s => .str s | none => .null
    nickname :=
      match nickname with
      | some s => if s.isEmpty then bank.toUpper ++ " Account" else s
      | none => bank.toUpper ++ " Account"
    linked_at := now
    active := true }

/-- Replace the first record with the given id (`existing.update(...)`
updates every field in place, account_linking.py 53-56). -/
def replaceById : List LinkedAccount → LinkedAccount → List LinkedAccount
  | [], _ => []
  | x :: rest, la => if x.id = la.id then la :: rest else x :: replaceById rest la

/-- The per-client list update of `link_account` (account_linking.py 46-60):
update in place when a record with the same id exists, append otherwise. -/
def linkList (l : List LinkedAccount) (la : LinkedAccount) : List LinkedAccount :=
  if l.any (fun x => x.id = la.id) then replaceById l la else l ++ [la]

/-- The linked-accounts store, keyed by client id. -/
abbrev LinkStore := List (String × List LinkedAccount)

/-- `AccountLinkingService.link_account` (account_linking.py 13-60). -/
def linkAccount (st : LinkStore) (clientId bank accountNumber : String)
    (accountId nickname : Option String) (now : String) : LinkStore :=
  let cur := (alGet st clientId).getD []
  alSet st clientId (linkList cur (mkLinkedAccount bank accountNumber accountId nickname now))

/-- `AccountLinkingService.get_linked_accounts` (account_linking.py 62-72). -/
def getLinkedAccounts (st : LinkStore) (clientId : String) : List LinkedAccount :=
  (alGet st clientId).getD []

/-- `AccountLinkingService.get_banks_for_client` (account_linking.py
96-108): banks of active linked accounts. The Python code builds a `set`
with unspecified order; the model keeps first-occurrence order. -/
def banksForClient (linked : List LinkedAccount) : List String :=
  ((linked.filter (fun a => a.active)).map (fun a => a.bank)).eraseDups

/-- Observable calls issued by the orchestrator for one client request. -/
inductive Ev where
  | token (bank : String)
  | fetchAccounts (bank : String)
  | consentReq (bank : String)
  | fetchBalances (bank : String) (accId : Json)
  | fetchTransactions (bank : String) (accId : Json)
deriving Repr, DecidableEq

/-- The bank a call was addressed to. -/
def Ev.bank : Ev → String
  | .token b => b
  | .fetchAccounts b => b
  | .consentReq b => b
  | .fetchBalances b _ => b
  | .fetchTransactions b _ => b

/-- Outcome of one data-fetch call against a bank gateway. -/
inductive FetchResult where
  | ok (resp : Json)
  | consentRequired
  | failure
deriving Repr, Inhabited

/-- Scripted behaviour of one bank for a `get_accounts` pipeline:
token acquisition outcome, the first accounts fetch, the consent request,
and the retried accounts fetch. -/
structure AccountsScript where
  token : Option String
  fetch1 : FetchResult
  consent : Option Json
  fetch2 : FetchResult

/-- The condition of aggregation.py 250: retry only when the consent
response has status `"approved"`, a truthy `consent_id` and a truthy
`auto_approved`. -/
def consentAutoApproved (resp : Json) : Bool :=
  ((resp.get "status").getD (.str "") == .str "approved")
    && otruthy (resp.get "consent_id")
    && ((resp.get "auto_approved").getD (.bool false)).truthy

/-- The per-bank pipeline of `AggregationService.get_accounts`
(aggregation.py 140-353): skip without credentials; acquire a token; fetch
accounts; on `ConsentRequiredError` request consent once and, only on an
auto-approved response with a consent id, retry the fetch once. Every
failure contributes nothing. Responses on which the Python parsing would
raise (non-mapping JSON) also contribute nothing, matching the
catch-all `except`. -/
def bankAccounts (hasCreds : Bool) (s : AccountsScript)
    (clientId : String) (store : ConsentStore) (bank : String) :
    List Account × ConsentStore × List Ev :=
  let _ := clientId
  if hasCreds then
    match s.token with
    | none => ([], store, [.token bank])
    | some _ =>
      match s.fetch1 with
      | .ok resp =>
        ((unwrapAccounts resp).map (fun d => normalizeAccount d bank), store,
          [.token bank, .fetchAccounts bank])
      | .failure => ([], store, [.token bank, .fetchAccounts bank])
      | .consentRequired =>
        let evs0 : List Ev := [.token bank, .fetchAccounts bank, .consentReq bank]
        match consentResult s.consent clientId bank store with
        | (none, store1) => ([], store1, evs0)
        | (some resp, store1) =>
          if consentAutoApproved resp then
            match s.fetch2 with
            | .ok resp2 =>
              ((unwrapAccounts resp2).map (fun d => normalizeAccount d bank), store1,
                evs0 ++ [.fetchAccounts bank])
            | _ => ([], store1, evs0 ++ [.fetchAccounts bank])
          else ([], store1, evs0)
  else ([], store, [])

/-- The bank loop of `get_accounts` (aggregation.py 140-353), threading the
consent store and concatenating per-bank results and event traces. -/
def getAccountsLoop (creds : String → Bool) (sc : String → AccountsScript)
    (clientId : String) (store : ConsentStore) :
    List String → List Account × ConsentStore × List Ev
  | [] => ([], store, [])
  | b :: rest =>
    let r1 := bankAccounts (creds b) (sc b) clientId store b
    let r2 := getAccountsLoop creds sc clientId r1.2.1 rest
    (r1.1 ++ r2.1, r2.2.1, r1.2.2 ++ r2.2.2)

/-- Bank selection of aggregation.py 131-133: an explicit list, else the
banks of the client's active linked accounts, else all configured banks. -/
def bankCodesFor (given : Option (List String)) (linked : List LinkedAccount) :
    List String :=
  match given with
  | some bs => bs
  | none =>
    let lb := banksForClient linked
    if lb.isEmpty then ["vbank", "abank", "sbank"] else lb

/-- Demo accounts of aggregation.py 355-369: one per linked account whose
bank was requested (`account_id` is the account number, currency RUB, type
current). -/
def demoAccounts (linked : List LinkedAccount) (bankCodes : List String) :
    List Account :=
  (linked.filter (fun a => bankCodes.contains a.bank)).map (fun a =>
    { account_id := .str a.account_number
      bank := a.bank
      currency := .str "RUB"
      account_type := .str "current"
      nickname := .str a.nickname
      servicer := .null })

/-- Result of `AggregationService.get_accounts`: `real` is the list
collected from the live APIs, `accounts` the returned value (demo accounts
substituted when `real` is empty). -/
structure AccountsOutcome where
  real : List Account
  accounts : List Account
  store : ConsentStore
  events : List Ev
deriving Repr

/-- `AggregationService.get_accounts` (aggregation.py 117-371). -/
def getAccountsFull (creds : String → Bool) (sc : String → AccountsScript)
    (clientId : String) (linked : List LinkedAccount) (store : ConsentStore)
    (bankCodes : Option (List String)) : AccountsOutcome :=
  let codes := bankCodesFor bankCodes linked
  let r := getAccountsLoop creds sc clientId store codes
  { real := r.1
    accounts := if r.1.isEmpty then demoAccounts linked codes else r.1
    store := r.2.1
    events := r.2.2 }

/-- Scripted behaviour of one per-account fetch with consent retry
(used by the balances and transactions pipelines). -/
structure RetryScript where
  fetch1 : FetchResult
  consent : Option Json
  fetch2 : FetchResult

/-- Scripted behaviour of one bank for a `get_balances` pipeline. -/
structure BalancesScript where
  token : Option String
  preConsent : Option Json
  perAccount : Json → RetryScript

/-- Scripted behaviour of one bank for a `get_transactions` pipeline. -/
structure TransactionsScript where
  token : Option String
  perAccount : Json → RetryScript

/-- The per-account balances fetch of aggregation.py 490-577: fetch; on
`ConsentRequiredError`, only when no consent id is held, request consent
once, rebind the consent id from the response, and retry once when that id
is truthy. Returns the collected balances, the (possibly rebound) consent
id (it persists across the account loop), the consent store and the event
trace. -/
def fetchBalancesForAccount (sc : RetryScript) (clientId bank : String)
    (accId : Json) (consentId : Json) (store : ConsentStore) :
    List Balance × Json × ConsentStore × List Ev :=
  match sc.fetch1 with
  | .ok resp =>
    ((unwrapBalances resp).map (fun d => normalizeBalance d accId), consentId, store,
      [.fetchBalances bank accId])
  | .failure => ([], consentId, store, [.fetchBalances bank accId])
  | .consentRequired =>
    if consentId.truthy then ([], consentId, store, [.fetchBalances bank accId])
    else
      match consentResult sc.consent clientId bank store with
      | (none, store1) => ([], consentId, store1, [.fetchBalances bank accId, .consentReq bank])
      | (some resp, store1) =>
        let cid := (resp.get "consent_id").getD .null
        if cid.truthy then
          match sc.fetch2 with
          | .ok resp2 =>
            ((unwrapBalances resp2).map (fun d => normalizeBalance d accId), cid, store1,
              [.fetchBalances bank accId, .consentReq bank, .fetchBalances bank accId])
          | _ =>
            ([], cid, store1,
              [.fetchBalances bank accId, .consentReq bank, .fetchBalances bank accId])
        else ([], cid, store1, [.fetchBalances bank accId, .consentReq bank])

/-- The account loop of aggregation.py 490-577, threading the consent id
and the store. -/
def balAccLoop (sc : Json → RetryScript) (clientId bank : String) :
    List Json → Json × ConsentStore → List Balance × Json × ConsentStore × List Ev
  | [], (cid, st) => ([], cid, st, [])
  | a :: rest, (cid, st) =>
    let r1 := fetchBalancesForAccount (sc a) clientId bank a cid st
    let r2 := balAccLoop sc clientId bank rest (r1.2.1, r1.2.2.1)
    (r1.1 ++ r2.1, r2.2.1, r2.2.2.1, r1.2.2.2 ++ r2.2.2.2)

/-- The per-bank balances pipeline of aggregation.py 444-582: skip without
credentials; acquire a token; look up the stored consent id; when none is
held, request consent up front (aggregation.py 476-488); then run the
account loop. -/
def bankBalances (hasCreds : Bool) (s : BalancesScript)
    (clientId : String) (store : ConsentStore) (bank : String) (accIds : List Json) :
    List Balance × ConsentStore × List Ev :=
  if hasCreds then
    match s.token with
    | none => ([], store, [.token bank])
    | some _ =>
      let cid0 := (getConsentId store clientId bank).getD .null
      let pre :=
        if cid0.truthy then (cid0, store, ([] : List Ev))
        else
          match consentResult s.preConsent clientId bank store with
          | (none, st1) => (cid0, st1, [Ev.consentReq bank])
          | (some resp, st1) => ((resp.get "consent_id").getD .null, st1, [Ev.consentReq bank])
      let r := balAccLoop s.perAccount clientId bank accIds (pre.1, pre.2.1)
      (r.1, r.2.2.1, [.token bank] ++ pre.2.2 ++ r.2.2.2)
  else ([], store, [])

/-- The account universe of aggregation.py 398-417 (and 649-667): ids of the
accounts returned by `get_accounts` plus, for each linked account, its
`account_id` when truthy, else its `account_number`. `list(set(...))` has
unspecified order and the result is only used for membership tests, so the
model keeps the concatenation. -/
def linkedIdOf (l : LinkedAccount) : Json :=
  if l.account_id.truthy then l.account_id else .str l.account_number

/-- The combined account-id list (aggregation.py 411-417): the union when no
explicit ids are requested, otherwise the requested ids filtered to known
ones. -/
def balanceIds (accounts : List Account) (linked : List LinkedAccount)
    (requested : Option (List Json)) : List Json :=
  let apiIds := accounts.map (fun a => a.account_id)
  let linkedIds := linked.map linkedIdOf
  match requested with
  | none => apiIds ++ linkedIds
  | some given => given.filter (fun i => apiIds.contains i || linkedIds.contains i)

/-- Append an account id to a bank's bucket (aggregation.py 423-439),
optionally deduplicating within the bucket as the linked-account pass
does. -/
def addByBank (m : List (String × List Json)) (bank : String) (accId : Json)
    (dedup : Bool) : List (String × List Json) :=
  match alGet m bank with
  | none => m ++ [(bank, [accId])]
  | some l => if dedup && l.contains accId then m else alSet m bank (l ++ [accId])

/-- The `accounts_by_bank` mapping of aggregation.py 421-439 (and 671-689):
first the API accounts (no dedup), then the linked accounts (dedup within a
bucket), keeping dict insertion order. -/
def buildByBank (accounts : List Account) (linked : List LinkedAccount)
    (ids : List Json) : List (String × List Json) :=
  let m1 := accounts.foldl
    (fun m a => if ids.contains a.account_id then addByBank m a.bank a.account_id false else m)
    []
  linked.foldl
    (fun m l =>
      let acc := linkedIdOf l
      if ids.contains acc then addByBank m l.bank acc true else m)
    m1

/-- The bank loop of `get_balances` over `accounts_by_bank`. -/
def balancesLoop (creds : String → Bool) (bsc : String → BalancesScript)
    (clientId : String) (store : ConsentStore) :
    List (String × List Json) → List Balance × ConsentStore × List Ev
  | [] => ([], store, [])
  | (b, accIds) :: rest =>
    let r1 := bankBalances (creds b) (bsc b) clientId store b accIds
    let r2 := balancesLoop creds bsc clientId r1.2.1 rest
    (r1.1 ++ r2.1, r2.2.1, r1.2.2 ++ r2.2.2)

/-- Demo balances of aggregation.py 596-605: one fixed 50000.00 RUB
`interimBooked` balance per linked account whose id was requested. The
`account_ids is None` disjunct of line 598 is dead code (the variable is
rebound to a list at 412-417) and is omitted. -/
def demoBalances (linked : List LinkedAccount) (ids : List Json) : List Balance :=
  (linked.filter (fun a =>
      ids.contains (.str a.account_number)
        || (a.account_id.truthy && ids.contains a.account_id))).map
    (fun a =>
      { account_id := pyOr (some a.account_id) (.str a.account_number)
        amount := "50000.00"
        currency := .str "RUB"
        balance_type := .str "interimBooked" })

/-- Result of `AggregationService.get_balances`: `real` is the list
collected from the live APIs, `result` the returned value. -/
structure BalancesOutcome where
  accountsRes : AccountsOutcome
  ids : List Json
  real : List Balance
  result : List Balance
  store : ConsentStore
  events : List Ev

/-- `AggregationService.get_balances` (aggregation.py 373-613): run
`get_accounts`, build the account universe, run the per-bank loop, and
substitute demo balances only when no balance was collected, `get_accounts`
returned no accounts at all, and linked accounts exist. -/
def getBalancesFull (creds : String → Bool) (asc : String → AccountsScript)
    (bsc : String → BalancesScript) (clientId : String)
    (linked : List LinkedAccount) (store : ConsentStore)
    (requestedIds : Option (List Json)) (bankCodes : Option (List String)) :
    BalancesOutcome :=
  let ar := getAccountsFull creds asc clientId linked store bankCodes
  let ids := balanceIds ar.accounts linked requestedIds
  let bb := buildByBank ar.accounts linked ids
  let lr := balancesLoop creds bsc clientId ar.store bb
  { accountsRes := ar
    ids := ids
    real := lr.1
    result :=
      if lr.1.isEmpty && ar.accounts.isEmpty && !linked.isEmpty then
        demoBalances linked ids
      else lr.1
    store := lr.2.1
    events := ar.events ++ lr.2.2 }

/-- The per-account transactions fetch of aggregation.py 719-804: same
consent-retry shape as the balances fetch (request consent only when no
consent id is held, retry once when the response carries a truthy id). -/
def fetchTransactionsForAccount (sc : RetryScript) (clientId bank : String)
    (accId : Json) (consentId : Json) (store : ConsentStore) :
    List Transaction × Json × ConsentStore × List Ev :=
  match sc.fetch1 with
  | .ok resp =>
    ((unwrapTransactions resp).map (fun d => normalizeTransaction d accId), consentId, store,
      [.fetchTransactions bank accId])
  | .failure => ([], consentId, store, [.fetchTransactions bank accId])
  | .consentRequired =>
    if consentId.truthy then ([], consentId, store, [.fetchTransactions bank accId])
    else
      match consentResult sc.consent clientId bank store with
      | (none, store1) =>
        ([], consentId, store1, [.fetchTransactions bank accId, .consentReq bank])
      | (some resp, store1) =>
        let cid := (resp.get "consent_id").getD .null
        if cid.truthy then
          match sc.fetch2 with
          | .ok resp2 =>
            ((unwrapTransactions resp2).map (fun d => normalizeTransaction d accId), cid, store1,
              [.fetchTransactions bank accId, .consentReq bank, .fetchTransactions bank accId])
          | _ =>
            ([], cid, store1,
              [.fetchTransactions bank accId, .consentReq bank, .fetchTransactions bank accId])
        else ([], cid, store1, [.fetchTransactions bank accId, .consentReq bank])

/-- The account loop of aggregation.py 719-804. -/
def txnAccLoop (sc : Json → RetryScript) (clientId bank : String) :
    List Json → Json × ConsentStore → List Transaction × Json × ConsentStore × List Ev
  | [], (cid, st) => ([], cid, st, [])
  | a :: rest, (cid, st) =>
    let r1 := fetchTransactionsForAccount (sc a) clientId bank a cid st
    let r2 := txnAccLoop sc clientId bank rest (r1.2.1, r1.2.2.1)
    (r1.1 ++ r2.1, r2.2.1, r2.2.2.1, r1.2.2.2 ++ r2.2.2.2)

/-- The per-bank transactions pipeline of aggregation.py 692-809: skip
without credentials; acquire a token; look up the stored consent id (no
up-front consent request here); run the account loop. -/
def bankTransactions (hasCreds : Bool) (s : TransactionsScript)
    (clientId : String) (store : ConsentStore) (bank : String) (accIds : List Json) :
    List Transaction × ConsentStore × List Ev :=
  if hasCreds then
    match s.token with
    | none => ([], store, [.token bank])
    | some _ =>
      let cid0 := (getConsentId store clientId bank).getD .null
      let r := txnAccLoop s.perAccount clientId bank accIds (cid0, store)
      (r.1, r.2.2.1, [.token bank] ++ r.2.2.2)
  else ([], store, [])

/-- The bank loop of `get_transactions` over `accounts_by_bank`. -/
def transactionsLoop (creds : String → Bool) (tsc : String → TransactionsScript)
    (clientId : String) (store : ConsentStore) :
    List (String × List Json) → List Transaction × ConsentStore × List Ev
  | [] => ([], store, [])
  | (b, accIds) :: rest =>
    let r1 := bankTransactions (creds b) (tsc b) clientId store b accIds
    let r2 := transactionsLoop creds tsc clientId r1.2.1 rest
    (r1.1 ++ r2.1, r2.2.1, r1.2.2 ++ r2.2.2)

/-- Result of `AggregationService.get_transactions`. -/
structure TransactionsOutcome where
  accountsRes : AccountsOutcome
  ids : List Json
  result : List Transaction
  store : ConsentStore
  events : List Ev

/-- `AggregationService.get_transactions` (aggregation.py 615-811): run
`get_accounts`, build the same account universe as `get_balances`, run the
per-bank loop, and return the collected list; there is no demo fallback in
this method. The date range is only forwarded to the scripted gateway and
is not modelled. -/
def getTransactionsFull (creds : String → Bool) (asc : String → AccountsScript)
    (tsc : String → TransactionsScript) (clientId : String)
    (linked : List LinkedAccount) (store : ConsentStore)
    (requestedIds : Option (List Json)) (bankCodes : Option (List String)) :
    TransactionsOutcome :=
  let ar := getAccountsFull creds asc clientId linked store bankCodes
  let ids := balanceIds ar.accounts linked requestedIds
  let bb := buildByBank ar.accounts linked ids
  let lr := transactionsLoop creds tsc clientId ar.store bb
  { accountsRes := ar
    ids := ids
    result := lr.1
    store := lr.2.1
    events := ar.events ++ lr.2.2 }

/-- Numeric value of a digit list (most significant first). -/
def digitsVal (ds : List Char) : Nat :=
  ds.foldl (fun n c => n * 10 + (c.toNat - 48)) 0

/-- Python `str.strip()` on a character list. -/
def trimChars (cs : List Char) : List Char :=
  ((cs.dropWhile Char.isWhitespace).reverse.dropWhile Char.isWhitespace).reverse

/-- Python `float(s)` on the strings reachable in analytics.py 62-84 (sign,
digits, at most one decimal point): `none` models `ValueError`. The value is
built with `mkRat` from the integer mantissa and the power-of-ten
denominator. -/
def pyFloat (s : String) : Option ℚ :=
  let cs := s.toList
  let neg : Bool := cs.head? = some (Char.ofNat 45)
  let body := if neg then cs.tail else cs
  let ipart := body.takeWhile (fun c => c.isDigit)
  let rest := body.drop ipart.length
  match rest with
  | [] =>
    if ipart.isEmpty then none
    else some (mkRat (if neg then -(digitsVal ipart : Int) else (digitsVal ipart : Int)) 1)
  | c :: fpart =>
    if c = Char.ofNat 46 ∧ fpart.all (fun d => d.isDigit)
        ∧ ¬(ipart.isEmpty ∧ fpart.isEmpty) then
      let m : Int := (digitsVal ipart : Int) * ((10 : Int) ^ fpart.length) + (digitsVal fpart : Int)
      some (mkRat (if neg then -m else m) ((10 : Nat) ^ fpart.length))
    else none

/-- Greedy match of `\d+\.?\d*` at the head of the input. -/
def digitsTokenAt (cs : List Char) : Option (List Char) :=
  let ds := cs.takeWhile (fun c => c.isDigit)
  if ds.isEmpty then none
  else
    match cs.drop ds.length with
    | c :: rest2 =>
      if c = Char.ofNat 46 then some (ds ++ [c] ++ rest2.takeWhile (fun d => d.isDigit))
      else some ds
    | [] => some ds

/-- Greedy match of `-?\d+\.?\d*` at the head of the input. -/
def numTokenAt (cs : List Char) : Option (List Char) :=
  match cs with
  | c :: rest =>
    if c = Char.ofNat 45 then (digitsTokenAt rest).map (fun m => c :: m)
    else digitsTokenAt cs
  | [] => none

/-- First match of `re.findall(r'-?\d+\.?\d*', s)` (analytics.py 72-76). -/
def firstNumToken : List Char → Option (List Char)
  | [] => none
  | c :: rest =>
    match numTokenAt (c :: rest) with
    | some m => some m
    | none => firstNumToken rest

/-- The amount-cleaning of `AnalyticsService.get_summary` (analytics.py
66-84): strip; a string starting with a brace or quote goes through the
regex extraction; otherwise keep only digits, dots and minus signs and
reject `""`, `"."`, `"-"`; finally `float(...)`, where a parse failure
(`ValueError`) means the record is skipped. -/
def parseAmount (amount : String) : Option ℚ :=
  let cs := trimChars amount.toList
  match cs with
  | [] => none
  | c :: _ =>
    if c = Char.ofNat 123 ∨ c = Char.ofNat 39 then
      match firstNumToken cs with
      | some m => pyFloat (String.mk m)
      | none => none
    else
      let f := cs.filter (fun ch => ch.isDigit ∨ ch = Char.ofNat 46 ∨ ch = Char.ofNat 45)
      if f.isEmpty ∨ f = [Char.ofNat 46] ∨ f = [Char.ofNat 45] then none
      else pyFloat (String.mk f)

/-- The `balances_by_account` selection map of analytics.py 63-100:
`account_id -> (amount, balance_type)`. -/
abbrev SelMap := List (Json × (ℚ × Json))

/-- One step of the selection loop (analytics.py 64-100): skip records whose
amount fails to parse; keep the first record per account; replace it when an
`interimBooked` record arrives and the held type is not `interimBooked`, or
when an `openingBooked` record arrives and the held type is neither. -/
def selectStep (m : SelMap) (b : Balance) : SelMap :=
  match parseAmount b.amount with
  | none => m
  | some q =>
    match alGet m b.account_id with
    | none => alSet m b.account_id (q, b.balance_type)
    | some cur =>
      if b.balance_type = .str "interimBooked" ∧ cur.2 ≠ .str "interimBooked" then
        alSet m b.account_id (q, b.balance_type)
      else if b.balance_type = .str "openingBooked" ∧ cur.2 ≠ .str "interimBooked"
          ∧ cur.2 ≠ .str "openingBooked" then
        alSet m b.account_id (q, b.balance_type)
      else m

/-- The full selection map for a balance list. -/
def balancesByAccount (bs : List Balance) : SelMap :=
  bs.foldl selectStep []

/-- `net_worth` (analytics.py 102-103): the sum of the selected amounts, one
per account. The Python value is a float; amounts are modelled as
rationals. -/
def netWorth (bs : List Balance) : ℚ :=
  ((balancesByAccount bs).map (fun p => p.2.1)).sum

/-- One `link_account` call's arguments (account_linking.py 13-20). -/
structure LinkOp where
  clientId : String
  bank : String
  accountNumber : String
  accountId : Option String
  nickname : Option String
  now : String

/-- Apply a sequence of `link_account` calls to a store. -/
def applyLinkOps (st : LinkStore) : List LinkOp → LinkStore
  | [] => st
  | op :: rest =>
    applyLinkOps
      (linkAccount st op.clientId op.bank op.accountNumber op.accountId op.nickname op.now)
      rest

/-- Whether an event is a balances fetch (any account). -/
def Ev.isFetchBal : Ev → Bool
  | .fetchBalances _ _ => true
  | _ => false

/-- Whether an event is a consent request. -/
def Ev.isConsentReq : Ev → Bool
  | .consentReq _ => true
  | _ => false

/-- Whether an event is an accounts fetch. -/
def Ev.isFetchAcc : Ev → Bool
  | .fetchAccounts _ => true
  | _ => false

theorem alGet_cons {κ α : Type} [DecidableEq κ] (k0 : κ) (v0 : α) (rest : List (κ × α)) (k : κ) :
    alGet ((k0, v0) :: rest) k = if k0 = k then some v0 else alGet rest k := by
  by_cases h : k0 = k <;> simp [alGet, List.find?, h]

theorem alSet_cons {κ α : Type} [DecidableEq κ] (k0 : κ) (v0 : α) (rest : List (κ × α))
    (k : κ) (v : α) :
    alSet ((k0, v0) :: rest) k v
      = if k0 = k then (k, v) :: rest else (k0, v0) :: alSet rest k v := rfl

theorem alGet_alSet_self {κ α : Type} [DecidableEq κ] (st : List (κ × α)) (k : κ) (v : α) :
    alGet (alSet st k v) k = some v := by
  induction st with
  | nil => simp [alGet, alSet]
  | cons p rest ih =>
    obtain ⟨k0, v0⟩ := p
    by_cases h : k0 = k
    · simp [alSet_cons, h, alGet_cons]
    · simpa [alSet_cons, h, alGet_cons] using ih

theorem alGet_alSet_ne {κ α : Type} [DecidableEq κ] (st : List (κ × α)) (k k2 : κ) (v : α)
    (h : k2 ≠ k) : alGet (alSet st k v) k2 = alGet st k2 := by
  induction st with
  | nil => simp [alGet, alSet, alGet_cons, Ne.symm h]
  | cons p rest ih =>
    obtain ⟨k0, v0⟩ := p
    by_cases hk : k0 = k
    · subst hk
      simp [alSet_cons, alGet_cons, Ne.symm h]
    · by_cases hk2 : k0 = k2 <;> simp [alSet_cons, hk, alGet_cons, hk2, h, ih]

theorem alGet_alErase_ne {κ α : Type} [DecidableEq κ] (st : List (κ × α)) (k k2 : κ)
    (h : k2 ≠ k) : alGet (alErase st k) k2 = alGet st k2 := by
  induction st with
  | nil => simp [alErase]
  | cons p rest ih =>
    obtain ⟨k0, v0⟩ := p
    by_cases hk : k0 = k
    · subst hk
      simp [alErase, alGet_cons, Ne.symm h]
    · by_cases hk2 : k0 = k2 <;> simp [alErase, hk, alGet_cons, hk2, h, ih]

theorem alGet_eq_none_iff {κ α : Type} [DecidableEq κ] (st : List (κ × α)) (k : κ) :
    alGet st k = none ↔ k ∉ st.map Prod.fst := by
  induction st with
  | nil => simp [alGet]
  | cons p rest ih =>
    obtain ⟨k0, v0⟩ := p
    by_cases h : k0 = k
    · simp [alGet_cons, h]
    · simpa [alGet_cons, h, Ne.symm h] using ih

theorem mem_keys_alSet {κ α : Type} [DecidableEq κ] (st : List (κ × α)) (k x : κ) (v : α)
    (hx : x ∈ (alSet st k v).map Prod.fst) : x ∈ st.map Prod.fst ∨ x = k := by
  induction st with
  | nil =>
    simp [alSet] at hx
    exact Or.inr hx
  | cons p rest ih =>
    obtain ⟨k0, v0⟩ := p
    by_cases h : k0 = k
    · subst h
      rw [alSet_cons, if_pos rfl, List.map_cons, List.mem_cons] at hx
      rcases hx with h1 | h1
      · exact Or.inr h1
      · exact Or.inl (by rw [List.map_cons, List.mem_cons]; exact Or.inr h1)
    · rw [alSet_cons, if_neg h, List.map_cons, List.mem_cons] at hx
      rcases hx with h1 | h1
      · exact Or.inl (by rw [List.map_cons, List.mem_cons]; exact Or.inl h1)
      · rcases ih h1 with h2 | h2
        · exact Or.inl (by rw [List.map_cons, List.mem_cons]; exact Or.inr h2)
        · exact Or.inr h2

theorem keys_nodup_alSet {κ α : Type} [DecidableEq κ] (st : List (κ × α)) (k : κ) (v : α)
    (h : (st.map Prod.fst).Nodup) : ((alSet st k v).map Prod.fst).Nodup := by
  induction st with
  | nil => simp [alSet]
  | cons p rest ih =>
    obtain ⟨k0, v0⟩ := p
    rw [List.map_cons, List.nodup_cons] at h
    by_cases hk : k0 = k
    · subst hk
      rw [alSet_cons, if_pos rfl, List.map_cons, List.nodup_cons]
      exact h
    · rw [alSet_cons, if_neg hk, List.map_cons, List.nodup_cons]
      refine ⟨?_, ih h.2⟩
      intro hmem
      rcases mem_keys_alSet rest k k0 v hmem with hm | hm
      · exact h.1 hm
      · exact hk hm

/-- C7: the claim states that `get_balances` and `get_transactions` raise
the distinguished consent-required signal on a consent-problem 403 like
`get_accounts` does. In the code only `get_accounts` inspects the body:
at the failing input (status 403, body `"CONSENT_REQUIRED"`) the accounts
mapping yields `consentRequired` while the balances and transactions
mappings yield the generic `BankAPIError 403`. The consent-retry handlers
in aggregation.py 530 and 754 expect `ConsentRequiredError` from these
calls and are unreachable, so the code contradicts its own error handling:
a code bug, not a spec error. -/
theorem consent_signal_divergence_at_403 :
    accountsFailureOf 403 "CONSENT_REQUIRED" = .consentRequired
      ∧ balancesFailureOf 403 "CONSENT_REQUIRED" = .bankAPI 403
      ∧ transactionsFailureOf 403 "CONSENT_REQUIRED" = .bankAPI 403 := by
  refine ⟨by decide, rfl, rfl⟩

/-- C4 counterexample, two divergences of the balances unwrapper from the
claimed rule. First, the claim states that when the nested `data` field
yields nothing, every unwrapper falls back to the top-level plural field:
on `{"balances": [r]}` (no `data` key) that field holds one record, yet
the unwrapper returns the empty list, because the missing `data` key
defaults to `{}`, which is a mapping, and the fallback branch is only
reached when `data` is present and not a mapping. Second, the claim states
the nested singular `data.balance` field is preferred: on
`{"data": {"balances": [1], "balance": [2, 3]}}` the claimed rule yields
the two records of `data.balance`, but the code yields the one record of
the nested plural `data.balances`. -/
theorem unwrapBalances_no_toplevel_fallback :
    (unwrapBalances (.obj [("balances", .arr [.obj [("amount", .str "1.00")]])]) = []
      ∧ (Json.obj [("balances", .arr [.obj [("amount", .str "1.00")]])]).get "balances"
          = some (.arr [.obj [("amount", .str "1.00")]]))
    ∧ unwrapBalances
        (.obj [("data", .obj [("balances", .arr [.num 1]), ("balance", .arr [.num 2, .num 3])])])
        = [.num 1] := by
  refine ⟨⟨by decide, by decide⟩, by decide⟩

/-- C4 amended: envelope unwrapping characterised per entity kind. The
accounts unwrapper prefers `data.account` (wrapping a single non-empty
mapping into a one-element list, so a single mapping yields exactly one
record and a two-element list exactly two) and falls back to the top-level
`accounts` field. The balances and transactions unwrappers prefer the
nested plural field (`data.balances` / `data.transactions`) over the
nested singular one, wrap a single mapping, and consult the top-level
plural field only when `data` is present and not a mapping; when `data` is
absent the top-level plural field is ignored and the result is empty.
Non-list, non-mapping values yield the empty list, never an error. -/
theorem envelope_unwrapping_amended :
    (∀ kvs : List (String × Json), kvs ≠ [] →
        unwrapAccounts (.obj [("data", .obj [("account", .obj kvs)])]) = [.obj kvs])
    ∧ (∀ x y : Json,
        unwrapAccounts (.obj [("data", .obj [("account", .arr [x, y])])]) = [x, y])
    ∧ (∀ xs : List Json, unwrapAccounts (.obj [("accounts", .arr xs)]) = xs)
    ∧ (∀ s : String, unwrapAccounts (.obj [("data", .obj [("account", .str s)])]) = [])
    ∧ (∀ kvs : List (String × Json),
        unwrapBalances (.obj [("data", .obj [("balance", .obj kvs)])]) = [.obj kvs])
    ∧ (∀ xs ys : List Json,
        unwrapBalances (.obj [("data", .obj [("balances", .arr xs), ("balance", .arr ys)])])
          = xs)
    ∧ (∀ xs : List Json, unwrapBalances (.obj [("balances", .arr xs)]) = [])
    ∧ (∀ xs : List Json,
        unwrapBalances (.obj [("data", .str "oops"), ("balances", .arr xs)]) = xs)
    ∧ (∀ s : String, unwrapBalances (.obj [("data", .obj [("balance", .str s)])]) = [])
    ∧ (∀ kvs : List (String × Json),
        unwrapTransactions (.obj [("data", .obj [("transaction", .obj kvs)])]) = [.obj kvs])
    ∧ (∀ xs : List Json, unwrapTransactions (.obj [("transactions", .arr xs)]) = []) := by
  refine ⟨?_, ?_, ?_, ?_, ?_, ?_, ?_, ?_, ?_, ?_, ?_⟩
  · intro kvs h
    simp [unwrapAccounts, Json.get, Json.truthy, h]
  · intro x y
    simp [unwrapAccounts, Json.get, Json.truthy]
  · intro xs
    simp [unwrapAccounts, Json.get, Json.truthy]
  · intro s
    by_cases h : s = "" <;> simp [unwrapAccounts, Json.get, Json.truthy, h]
  · intro kvs
    simp [unwrapBalances, Json.get]
  · intro xs ys
    simp [unwrapBalances, Json.get]
  · intro xs
    simp [unwrapBalances, Json.get]
  · intro xs
    simp [unwrapBalances, Json.get]
  · intro s
    simp [unwrapBalances, Json.get]
  · intro kvs
    simp [unwrapTransactions, Json.get]
  · intro xs
    simp [unwrapTransactions, Json.get]

/-- C4 witness: the amended characterisation applied at a concrete single
mapping under `data.account`. -/
theorem envelope_unwrapping_amended_witness :
    unwrapAccounts (.obj [("data", .obj [("account", .obj [("accountId", .str "A1")])])])
      = [.obj [("accountId", .str "A1")]] :=
  envelope_unwrapping_amended.1 [("accountId", .str "A1")] (by decide)

/-- C6: the token-cache contract. (1) `get` returns absent iff there is no
entry for the bank or the entry's expiry has passed; (2) an expired entry is
evicted by the read itself (lazy eviction); (3) an unexpired entry is
returned with the state untouched (no proactive eviction); (4) `set` stores
`expires_at = now + expires_in - 60`; (5) for `expires_in ≤ 60` the stored
token is already at or past expiry, so every later `get` (any time
`t ≥ now`, including the read that `get_bank_token` itself performs right
after storing) misses: the token is at most single-use, via the response in
hand, and is never served from the cache. -/
theorem tokenCache_contract :
    (∀ (st : TokenCacheState) (bank : String) (now : Int),
        (cacheGet st bank now).1 = none
          ↔ (alGet st bank = none ∨ ∃ e, alGet st bank = some e ∧ now ≥ e.expires_at))
    ∧ (∀ (st : TokenCacheState) (bank : String) (now : Int) (e : CachedToken),
        alGet st bank = some e → now ≥ e.expires_at →
        (cacheGet st bank now).2 = alErase st bank)
    ∧ (∀ (st : TokenCacheState) (bank : String) (now : Int) (e : CachedToken),
        alGet st bank = some e → now < e.expires_at →
        cacheGet st bank now = (some e, st))
    ∧ (∀ (st : TokenCacheState) (bank : String) (td : Json) (now ei : Int)
        (st2 : TokenCacheState),
        (td.get "expires_in").getD (.num 86400) = .num ei →
        cacheSet st bank td now = some st2 →
        ∃ e, alGet st2 bank = some e ∧ e.expires_at = now + ei - 60)
    ∧ (∀ (st : TokenCacheState) (bank : String) (td : Json) (now ei : Int)
        (st2 : TokenCacheState),
        (td.get "expires_in").getD (.num 86400) = .num ei →
        ei ≤ 60 →
        cacheSet st bank td now = some st2 →
        ∀ t : Int, t ≥ now → (cacheGet st2 bank t).1 = none) := by
  have hset : ∀ (st : TokenCacheState) (bank : String) (td : Json) (now ei : Int)
      (st2 : TokenCacheState),
      (td.get "expires_in").getD (.num 86400) = .num ei →
      cacheSet st bank td now = some st2 →
      ∃ e, alGet st2 bank = some e ∧ e.expires_at = now + ei - 60 := by
    intro st bank td now ei st2 hei hs
    cases htok : td.get "access_token" with
    | none => simp [cacheSet, htok] at hs
    | some tok =>
      rw [cacheSet, htok, hei] at hs
      simp at hs
      subst hs
      exact ⟨_, alGet_alSet_self _ _ _, rfl⟩
  refine ⟨?_, ?_, ?_, hset, ?_⟩
  · intro st bank now
    cases h : alGet st bank with
    | none => simp [cacheGet, h]
    | some e =>
      by_cases hn : now ≥ e.expires_at
      · simp [cacheGet, h, hn]
      · simp [cacheGet, h, hn]
  · intro st bank now e h hn
    simp [cacheGet, h, hn]
  · intro st bank now e h hn
    simp [cacheGet, h, not_le.mpr hn]
  · intro st bank td now ei st2 hei hle hs t ht
    obtain ⟨e, he, hexp⟩ := hset st bank td now ei st2 hei hs
    have : t ≥ e.expires_at := by omega
    simp [cacheGet, he, this]

/-- C6 witness: storing a token with `expires_in = 60` at time 1000 and
reading it back at the same instant already misses. -/
theorem tokenCache_contract_witness :
    (cacheGet
        [("vbank",
          { access_token := .str "t", token_type := .str "bearer", client_id := .null,
            expires_in := 60, expires_at := 1000 })]
        "vbank" 1000).1 = none :=
  tokenCache_contract.2.2.2.2 [] "vbank"
    (.obj [("access_token", .str "t"), ("expires_in", .num 60)]) 1000 60
    [("vbank",
      { access_token := .str "t", token_type := .str "bearer", client_id := .null,
        expires_in := 60, expires_at := 1000 })]
    (by decide) (by decide) (by decide) 1000 (by decide)

/-- C8 counterexample: the claim states an entry is written only when the
consent response is auto-approved (`auto_approved = true`). The store
update (consent_service.py 61-67) checks only `consent_id` and
`status == "approved"`: a response with `auto_approved = false` still
writes the entry. -/
theorem consent_store_written_without_auto_approved :
    consentStoreAfter [] "c1" "vbank"
        (.obj [("status", .str "approved"), ("consent_id", .str "X1"),
               ("auto_approved", .bool false)])
      = [(("c1", "vbank"), .str "X1")]
      ∧ (Json.obj [("status", .str "approved"), ("consent_id", .str "X1"),
               ("auto_approved", .bool false)]).get "auto_approved"
          = some (.bool false) := by
  refine ⟨by decide, by decide⟩

/-- C8 amended: the consent store holds at most one consent id per
`(client_id, bank)` pair; an entry is written exactly when the consent
response carries a truthy `consent_id` and status `"approved"` — the
`auto_approved` flag is not consulted; and a stored entry never expires
within the process: `get_consent_id` returns it unchanged across store
updates and clears for other keys, until it is explicitly cleared. -/
theorem consent_store_amended :
    (∀ (store : ConsentStore) (c b : String) (resp : Json),
        ¬(otruthy (resp.get "consent_id") = true
            ∧ (resp.get "status").getD (.str "") = .str "approved") →
        consentStoreAfter store c b resp = store)
    ∧ (∀ (store : ConsentStore) (c b : String) (resp : Json) (cid : Json),
        resp.get "consent_id" = some cid → cid.truthy = true →
        (resp.get "status").getD (.str "") = .str "approved" →
        getConsentId (consentStoreAfter store c b resp) c b = some cid)
    ∧ (∀ (store : ConsentStore) (c b : String) (resp : Json),
        (store.map Prod.fst).Nodup →
        ((consentStoreAfter store c b resp).map Prod.fst).Nodup)
    ∧ (∀ (store : ConsentStore) (c b : String) (v : Json) (c2 b2 : String) (resp : Json),
        getConsentId store c b = some v → (c2, b2) ≠ (c, b) →
        getConsentId (consentStoreAfter store c2 b2 resp) c b = some v)
    ∧ (∀ (store : ConsentStore) (c b : String) (v : Json) (c2 b2 : String),
        getConsentId store c b = some v → (c2, b2) ≠ (c, b) →
        getConsentId (clearConsentId store c2 b2) c b = some v) := by
  refine ⟨?_, ?_, ?_, ?_, ?_⟩
  · intro store c b resp h
    cases hc : resp.get "consent_id" with
    | none => simp [consentStoreAfter, hc]
    | some cid =>
      simp only [consentStoreAfter, hc]
      rw [if_neg]
      intro hcond
      exact h ⟨by simp [otruthy, hc, hcond.1], hcond.2⟩
  · intro store c b resp cid hc ht hs
    simp only [getConsentId, consentStoreAfter, hc]
    rw [if_pos ⟨ht, hs⟩]
    exact alGet_alSet_self store (c, b) cid
  · intro store c b resp h
    cases hc : resp.get "consent_id" with
    | none => simpa [consentStoreAfter, hc] using h
    | some cid =>
      simp only [consentStoreAfter, hc]
      split
      · exact keys_nodup_alSet store (c, b) _ h
      · exact h
  · intro store c b v c2 b2 resp hv hne
    simp only [getConsentId] at hv ⊢
    cases hc : resp.get "consent_id" with
    | none => simpa [consentStoreAfter, hc] using hv
    | some cid =>
      simp only [consentStoreAfter, hc]
      split
      · rw [alGet_alSet_ne store (c2, b2) (c, b) _ (Ne.symm hne)]
        exact hv
      · exact hv
  · intro store c b v c2 b2 hv hne
    simp only [getConsentId] at hv ⊢
    rw [clearConsentId, alGet_alErase_ne store (c2, b2) (c, b) (Ne.symm hne)]
    exact hv

/-- C8 witness: the amended write condition applied at a concrete approved
response with a consent id (and no `auto_approved` field at all). -/
theorem consent_store_amended_witness :
    getConsentId
        (consentStoreAfter [] "c9" "abank"
          (.obj [("status", .str "approved"), ("consent_id", .str "CID-7")]))
        "c9" "abank" = some (.str "CID-7") :=
  consent_store_amended.2.1 [] "c9" "abank"
    (.obj [("status", .str "approved"), ("consent_id", .str "CID-7")])
    (.str "CID-7") (by decide) (by decide) (by decide)

theorem countP_le_one_of_ids {α β : Type} [DecidableEq β] (l : List α) (f : α → β)
    (p : α → Bool) (k : β) (hnd : (l.map f).Nodup)
    (hp : ∀ x ∈ l, p x = true → f x = k) : l.countP p ≤ 1 := by
  induction l with
  | nil => simp
  | cons x xs ih =>
    rw [List.map_cons, List.nodup_cons] at hnd
    rw [List.countP_cons]
    by_cases hpx : p x = true
    · have hzero : xs.countP p = 0 := by
        rw [List.countP_eq_zero]
        intro y hy hpy
        have h1 : f y = k := hp y (List.mem_cons_of_mem _ hy) hpy
        have h2 : f x = k := hp x (List.mem_cons_self _ _) hpx
        exact hnd.1 (by rw [h2, ← h1]; exact List.mem_map_of_mem f hy)
      simp [hpx, hzero]
    · have := ih hnd.2 (fun y hy hpy => hp y (List.mem_cons_of_mem _ hy) hpy)
      simp [hpx]
      omega

theorem ids_replaceById (l : List LinkedAccount) (la : LinkedAccount) :
    (replaceById l la).map (fun x => x.id) = l.map (fun x => x.id) := by
  induction l with
  | nil => rfl
  | cons x rest ih =>
    by_cases h : x.id = la.id
    · simp [replaceById, h]
    · simp [replaceById, h, ih]

theorem length_replaceById (l : List LinkedAccount) (la : LinkedAccount) :
    (replaceById l la).length = l.length := by
  induction l with
  | nil => rfl
  | cons x rest ih =>
    by_cases h : x.id = la.id <;> simp [replaceById, h, ih]

theorem mem_replaceById (l : List LinkedAccount) (la x : LinkedAccount)
    (hx : x ∈ replaceById l la) : x ∈ l ∨ x = la := by
  induction l with
  | nil => simp [replaceById] at hx
  | cons y rest ih =>
    by_cases h : y.id = la.id
    · rw [replaceById, if_pos h] at hx
      rcases List.mem_cons.mp hx with h1 | h1
      · exact Or.inr h1
      · exact Or.inl (List.mem_cons_of_mem _ h1)
    · rw [replaceById, if_neg h] at hx
      rcases List.mem_cons.mp hx with h1 | h1
      · exact Or.inl (h1 ▸ List.mem_cons_self _ _)
      · rcases ih h1 with h2 | h2
        · exact Or.inl (List.mem_cons_of_mem _ h2)
        · exact Or.inr h2

theorem linkAccount_inv (st : LinkStore) (c b n : String) (aid nick : Option String)
    (now : String)
    (h : ∀ c2, ((getLinkedAccounts st c2).map (fun x => x.id)).Nodup
        ∧ ∀ x ∈ getLinkedAccounts st c2, x.id = x.bank ++ "-" ++ x.account_number) :
    ∀ c2, ((getLinkedAccounts (linkAccount st c b n aid nick now) c2).map (fun x => x.id)).Nodup
        ∧ ∀ x ∈ getLinkedAccounts (linkAccount st c b n aid nick now) c2,
            x.id = x.bank ++ "-" ++ x.account_number := by
  intro c2
  by_cases hc : c2 = c
  · subst hc
    have hget : getLinkedAccounts (linkAccount st c2 b n aid nick now) c2
        = linkList (getLinkedAccounts st c2) (mkLinkedAccount b n aid nick now) := by
      simp [linkAccount, getLinkedAccounts, alGet_alSet_self]
    rw [hget]
    set l := getLinkedAccounts st c2 with hl
    set la := mkLinkedAccount b n aid nick now with hla
    have hlaco : la.id = la.bank ++ "-" ++ la.account_number := rfl
    by_cases hany : l.any (fun x => x.id = la.id)
    · rw [linkList, if_pos hany]
      refine ⟨by rw [ids_replaceById]; exact (h c2).1, ?_⟩
      intro x hx
      rcases mem_replaceById l la x hx with h1 | h1
      · exact (h c2).2 x h1
      · rw [h1]; exact hlaco
    · rw [linkList, if_neg hany]
      constructor
      · rw [List.map_append]
        rw [List.nodup_append]
        refine ⟨(h c2).1, List.nodup_singleton _, ?_⟩
        intro y hy
        simp only [List.map_cons, List.map_nil, List.mem_singleton]
        intro hyla
        rcases List.mem_map.mp hy with ⟨x, hxl, hxy⟩
        rw [Bool.not_eq_true, List.any_eq_false] at hany
        exact hany x hxl (decide_eq_true (hxy.trans hyla))
      · intro x hx
        rcases List.mem_append.mp hx with h1 | h1
        · exact (h c2).2 x h1
        · rw [List.mem_singleton.mp h1]; exact hlaco
  · have hget : getLinkedAccounts (linkAccount st c b n aid nick now) c2
        = getLinkedAccounts st c2 := by
      simp [linkAccount, getLinkedAccounts, alGet_alSet_ne st c c2 _ hc]
    rw [hget]
    exact h c2

theorem applyLinkOps_inv (ops : List LinkOp) (st : LinkStore)
    (h : ∀ c2, ((getLinkedAccounts st c2).map (fun x => x.id)).Nodup
        ∧ ∀ x ∈ getLinkedAccounts st c2, x.id = x.bank ++ "-" ++ x.account_number) :
    ∀ c2, ((getLinkedAccounts (applyLinkOps st ops) c2).map (fun x => x.id)).Nodup
        ∧ ∀ x ∈ getLinkedAccounts (applyLinkOps st ops) c2,
            x.id = x.bank ++ "-" ++ x.account_number := by
  induction ops generalizing st with
  | nil => exact h
  | cons op rest ih =>
    exact ih _ (linkAccount_inv st op.clientId op.bank op.accountNumber op.accountId
      op.nickname op.now h)

/-- C10: `link_account` is idempotent on the `(bank, account_number)` key.
After any sequence of `link_account` calls starting from the empty store, a
client's linked list holds at most one entry per `(bank, account_number)`
pair (entries carry pairwise-distinct ids, and the id of an entry is always
`bank ++ "-" ++ account_number`); and re-linking a key whose id is already
present updates the existing entry in place, leaving the list length
unchanged. -/
theorem link_account_key_unique :
    (∀ (ops : List LinkOp) (c b n : String),
        ((getLinkedAccounts (applyLinkOps [] ops) c).countP
            (fun la => la.bank = b ∧ la.account_number = n)) ≤ 1)
    ∧ (∀ (st : LinkStore) (c b n : String) (aid nick : Option String) (now : String),
        (getLinkedAccounts st c).any (fun x => x.id = b ++ "-" ++ n) = true →
        (getLinkedAccounts (linkAccount st c b n aid nick now) c).length
          = (getLinkedAccounts st c).length) := by
  constructor
  · intro ops c b n
    have hinv := applyLinkOps_inv ops []
      (by intro c2; simp [getLinkedAccounts, alGet]) c
    refine countP_le_one_of_ids _ (fun x => x.id) _ (b ++ "-" ++ n) hinv.1 ?_
    intro x hx hp
    have hco := hinv.2 x hx
    simp only [decide_eq_true_eq] at hp
    show x.id = b ++ "-" ++ n
    rw [hco, hp.1, hp.2]
  · intro st c b n aid nick now hany
    have hget : getLinkedAccounts (linkAccount st c b n aid nick now) c
        = linkList (getLinkedAccounts st c) (mkLinkedAccount b n aid nick now) := by
      simp [linkAccount, getLinkedAccounts, alGet_alSet_self]
    rw [hget, linkList, if_pos (by exact hany), length_replaceById]

/-- C10 witness: re-linking an existing (bank, account number) pair keeps
the list length at one. -/
theorem link_account_key_unique_witness :
    (getLinkedAccounts
        (linkAccount [("c1", [mkLinkedAccount "vbank" "n1" none none "t0"])]
          "c1" "vbank" "n1" none (some "B") "t1") "c1").length
      = (getLinkedAccounts [("c1", [mkLinkedAccount "vbank" "n1" none none "t0"])] "c1").length :=
  link_account_key_unique.2 [("c1", [mkLinkedAccount "vbank" "n1" none none "t0"])]
    "c1" "vbank" "n1" none (some "B") "t1" (by decide)

theorem keys_nodup_selectStep (m : SelMap) (b : Balance)
    (h : (m.map Prod.fst).Nodup) : ((selectStep m b).map Prod.fst).Nodup := by
  cases hp : parseAmount b.amount with
  | none => simpa [selectStep, hp] using h
  | some q =>
    cases hg : alGet m b.account_id with
    | none =>
      simp only [selectStep, hp, hg]
      exact keys_nodup_alSet m _ _ h
    | some cur =>
      simp only [selectStep, hp, hg]
      by_cases h1 : b.balance_type = .str "interimBooked" ∧ cur.2 ≠ .str "interimBooked"
      · rw [if_pos h1]
        exact keys_nodup_alSet m _ _ h
      · rw [if_neg h1]
        by_cases h2 : b.balance_type = .str "openingBooked" ∧ cur.2 ≠ .str "interimBooked"
            ∧ cur.2 ≠ .str "openingBooked"
        · rw [if_pos h2]
          exact keys_nodup_alSet m _ _ h
        · rw [if_neg h2]
          exact h

theorem keys_nodup_balancesByAccount (bs : List Balance) :
    ((balancesByAccount bs).map Prod.fst).Nodup := by
  have hgen : ∀ (l : List Balance) (m : SelMap), (m.map Prod.fst).Nodup →
      ((l.foldl selectStep m).map Prod.fst).Nodup := by
    intro l
    induction l with
    | nil => intro m h; exact h
    | cons b rest ih =>
      intro m h
      exact ih _ (keys_nodup_selectStep m b h)
  exact hgen bs [] (by simp)

/-- C5: net worth uses exactly one balance record per account id: the
selection map keys are pairwise distinct for every input list, so two
balance types of one account are never summed together; and for an account
with one `interimBooked` and one `openingBooked` record (in either order,
amounts parseable, other fields arbitrary) only the `interimBooked` amount
contributes to the sum. -/
theorem netWorth_interim_precedence :
    (∀ (a c1 c2 : Json) (si so : String) (qi qo : ℚ),
        parseAmount si = some qi → parseAmount so = some qo →
        netWorth [{ account_id := a, amount := si, currency := c1,
                    balance_type := .str "interimBooked" },
                  { account_id := a, amount := so, currency := c2,
                    balance_type := .str "openingBooked" }] = qi
        ∧ netWorth [{ account_id := a, amount := so, currency := c2,
                      balance_type := .str "openingBooked" },
                    { account_id := a, amount := si, currency := c1,
                      balance_type := .str "interimBooked" }] = qi)
    ∧ (∀ bs : List Balance, ((balancesByAccount bs).map Prod.fst).Nodup) := by
  refine ⟨?_, keys_nodup_balancesByAccount⟩
  intro a c1 c2 si so qi qo hpi hpo
  constructor
  · simp [netWorth, balancesByAccount, selectStep, hpi, hpo, alGet, alSet, alGet_cons]
  · simp [netWorth, balancesByAccount, selectStep, hpi, hpo, alGet, alSet, alGet_cons]

/-- C5 witness: with amounts "100.50" (interim) and "20.00" (opening) for
one account, the net worth is 100.50. -/
theorem netWorth_interim_precedence_witness :
    netWorth [{ account_id := .str "A1", amount := "100.50", currency := .str "RUB",
                balance_type := .str "interimBooked" },
              { account_id := .str "A1", amount := "20.00", currency := .str "RUB",
                balance_type := .str "openingBooked" }] = mkRat 201 2 :=
  (netWorth_interim_precedence.1 (.str "A1") (.str "RUB") (.str "RUB") "100.50" "20.00"
    (mkRat 201 2) (mkRat 20 1) (by decide) (by decide)).1

theorem bankAccounts_no_creds (s : AccountsScript) (clientId : String)
    (store : ConsentStore) (bank : String) :
    bankAccounts false s clientId store bank = ([], store, []) := by
  simp [bankAccounts]

theorem bankAccounts_events_bank (hasCreds : Bool) (s : AccountsScript) (clientId : String)
    (store : ConsentStore) (bank : String) :
    ∀ e ∈ (bankAccounts hasCreds s clientId store bank).2.2, Ev.bank e = bank := by
  intro e he
  cases hasCreds with
  | false => simp [bankAccounts] at he
  | true =>
    obtain ⟨t, f1, cns, f2⟩ := s
    cases t with
    | none =>
      simp [bankAccounts] at he
      simp [he, Ev.bank]
    | some tok =>
      cases f1 with
      | ok resp =>
        simp [bankAccounts] at he
        rcases he with h | h <;> simp [h, Ev.bank]
      | failure =>
        simp [bankAccounts] at he
        rcases he with h | h <;> simp [h, Ev.bank]
      | consentRequired =>
        rcases hcr : consentResult cns clientId bank store with ⟨o, store1⟩
        cases o with
        | none =>
          simp [bankAccounts, hcr] at he
          rcases he with h | h | h <;> simp [h, Ev.bank]
        | some resp =>
          by_cases ha : consentAutoApproved resp
          · cases f2 with
            | ok r2 =>
              simp [bankAccounts, hcr, ha] at he
              rcases he with h | h | h | h <;> simp [h, Ev.bank]
            | failure =>
              simp [bankAccounts, hcr, ha] at he
              rcases he with h | h | h | h <;> simp [h, Ev.bank]
            | consentRequired =>
              simp [bankAccounts, hcr, ha] at he
              rcases he with h | h | h | h <;> simp [h, Ev.bank]
          · simp [bankAccounts, hcr, ha] at he
            rcases he with h | h | h <;> simp [h, Ev.bank]

theorem getAccountsLoop_events_creds (creds : String → Bool) (sc : String → AccountsScript)
    (clientId : String) :
    ∀ (codes : List String) (store : ConsentStore),
      ∀ e ∈ (getAccountsLoop creds sc clientId store codes).2.2, creds (Ev.bank e) = true := by
  intro codes
  induction codes with
  | nil => intro store e he; simp [getAccountsLoop] at he
  | cons b rest ih =>
    intro store e he
    simp only [getAccountsLoop] at he
    rcases List.mem_append.mp he with h1 | h1
    · by_cases hc : creds b
      · rw [bankAccounts_events_bank (creds b) (sc b) clientId store b e h1]
        exact hc
      · rw [Bool.not_eq_true] at hc
        rw [hc, bankAccounts_no_creds (sc b) clientId store b] at h1
        simp at h1
    · exact ih _ e h1

theorem getAccountsLoop_filter_creds (creds : String → Bool) (sc : String → AccountsScript)
    (clientId : String) :
    ∀ (codes : List String) (store : ConsentStore),
      getAccountsLoop creds sc clientId store codes
        = getAccountsLoop creds sc clientId store (codes.filter (fun b => creds b)) := by
  intro codes
  induction codes with
  | nil => intro store; rfl
  | cons b rest ih =>
    intro store
    by_cases hc : creds b
    · rw [List.filter_cons_of_pos (by simpa using hc)]
      simp only [getAccountsLoop]
      rw [ih]
    · rw [List.filter_cons_of_neg (by simpa using hc)]
      simp only [getAccountsLoop]
      rw [Bool.not_eq_true] at hc
      rw [hc, bankAccounts_no_creds (sc b) clientId store b]
      simp [ih]

/-- C9: a bank in the selection without configured credentials is skipped
before token acquisition: no event of the whole `get_accounts` run (token
acquisition, fetch, or consent call) is addressed to it, the run returns
normally, and the real-account collection equals the loop over just the
credentialed banks, so the other banks are processed unchanged. -/
theorem get_accounts_skips_bank_without_credentials
    (creds : String → Bool) (asc : String → AccountsScript) (clientId : String)
    (linked : List LinkedAccount) (store : ConsentStore)
    (bankCodes : Option (List String)) (bank : String) (hb : creds bank = false) :
    (∀ e ∈ (getAccountsFull creds asc clientId linked store bankCodes).events,
        Ev.bank e ≠ bank)
    ∧ (getAccountsFull creds asc clientId linked store bankCodes).real
        = (getAccountsLoop creds asc clientId store
            ((bankCodesFor bankCodes linked).filter (fun b => creds b))).1 := by
  constructor
  · intro e he heq
    have h1 := getAccountsLoop_events_creds creds asc clientId
      (bankCodesFor bankCodes linked) store e he
    rw [heq, hb] at h1
    exact Bool.false_ne_true h1
  · have hreal : (getAccountsFull creds asc clientId linked store bankCodes).real
        = (getAccountsLoop creds asc clientId store (bankCodesFor bankCodes linked)).1 := rfl
    rw [hreal, getAccountsLoop_filter_creds creds asc clientId
      (bankCodesFor bankCodes linked) store]

/-- C9 witness: with no credentials anywhere the real collection equals the
loop over the (empty) credentialed-bank list. -/
theorem get_accounts_skips_witness :
    (getAccountsFull (fun _ => false)
        (fun _ => { token := none, fetch1 := .failure, consent := none, fetch2 := .failure })
        "C1" [] [] none).real
      = (getAccountsLoop (fun _ => false)
          (fun _ => { token := none, fetch1 := .failure, consent := none, fetch2 := .failure })
          "C1" []
          ((bankCodesFor none []).filter (fun b => (fun _ => false) b))).1 :=
  (get_accounts_skips_bank_without_credentials (fun _ => false)
      (fun _ => { token := none, fetch1 := .failure, consent := none, fetch2 := .failure })
      "C1" [] [] none "vbank" rfl).2

/-- C1: `get_balances` substitutes placeholder balances only when it
collected no real balances, `get_accounts` obtained no real account from
the live APIs, and the client has linked accounts; and whenever
`get_accounts` collects a non-empty real account list, `get_balances`
returns the collected (possibly empty) real balance list unchanged. -/
theorem getBalances_placeholder_only_without_live_data
    (creds : String → Bool) (asc : String → AccountsScript) (bsc : String → BalancesScript)
    (clientId : String) (linked : List LinkedAccount) (store : ConsentStore)
    (requestedIds : Option (List Json)) (bankCodes : Option (List String)) :
    ((getBalancesFull creds asc bsc clientId linked store requestedIds bankCodes).result
        ≠ (getBalancesFull creds asc bsc clientId linked store requestedIds bankCodes).real →
      (getBalancesFull creds asc bsc clientId linked store requestedIds bankCodes).real = []
        ∧ (getBalancesFull creds asc bsc clientId linked store requestedIds
            bankCodes).accountsRes.real = []
        ∧ linked ≠ [])
    ∧ ((getBalancesFull creds asc bsc clientId linked store requestedIds
          bankCodes).accountsRes.real ≠ [] →
        (getBalancesFull creds asc bsc clientId linked store requestedIds bankCodes).result
          = (getBalancesFull creds asc bsc clientId linked store requestedIds bankCodes).real) := by
  have hres : (getBalancesFull creds asc bsc clientId linked store requestedIds bankCodes).result
      = if (getBalancesFull creds asc bsc clientId linked store requestedIds bankCodes).real.isEmpty
            && (getBalancesFull creds asc bsc clientId linked store requestedIds
                bankCodes).accountsRes.accounts.isEmpty
            && !linked.isEmpty then
          demoBalances linked
            (getBalancesFull creds asc bsc clientId linked store requestedIds bankCodes).ids
        else (getBalancesFull creds asc bsc clientId linked store requestedIds bankCodes).real :=
    rfl
  have hacc : (getBalancesFull creds asc bsc clientId linked store requestedIds
        bankCodes).accountsRes.accounts
      = if (getBalancesFull creds asc bsc clientId linked store requestedIds
            bankCodes).accountsRes.real.isEmpty then
          demoAccounts linked (bankCodesFor bankCodes linked)
        else (getBalancesFull creds asc bsc clientId linked store requestedIds
            bankCodes).accountsRes.real := rfl
  constructor
  · intro hne
    by_cases hcond : ((getBalancesFull creds asc bsc clientId linked store requestedIds
          bankCodes).real.isEmpty
        && (getBalancesFull creds asc bsc clientId linked store requestedIds
            bankCodes).accountsRes.accounts.isEmpty
        && !linked.isEmpty) = true
    · rw [Bool.and_eq_true, Bool.and_eq_true] at hcond
      obtain ⟨⟨h1, h2⟩, h3⟩ := hcond
      refine ⟨List.isEmpty_iff.mp h1, ?_, by simpa using h3⟩
      by_cases hr : (getBalancesFull creds asc bsc clientId linked store requestedIds
          bankCodes).accountsRes.real.isEmpty = true
      · exact List.isEmpty_iff.mp hr
      · rw [hacc, if_neg hr] at h2
        exact absurd h2 hr
    · rw [hres, if_neg hcond] at hne
      exact absurd rfl hne
  · intro hr
    have hrb : (getBalancesFull creds asc bsc clientId linked store requestedIds
        bankCodes).accountsRes.real.isEmpty = false := by
      rw [List.isEmpty_eq_false]
      exact hr
    have haccne : (getBalancesFull creds asc bsc clientId linked store requestedIds
        bankCodes).accountsRes.accounts.isEmpty = false := by
      rw [hacc, if_neg (by simp [hrb])]
      exact hrb
    rw [hres, if_neg]
    simp [haccne]

/-- C1 witness: with one real account obtained from the live API and no
balances collected, the result is the real (empty) balance list, not a
placeholder. -/
theorem getBalances_placeholder_witness :
    (getBalancesFull (fun b => b = "vbank")
        (fun _ => { token := some "t",
                    fetch1 := .ok (.obj [("data", .obj [("account",
                      .arr [.obj [("accountId", .str "A1")]])])]),
                    consent := none, fetch2 := .failure })
        (fun _ => { token := none, preConsent := none,
                    perAccount := fun _ =>
                      { fetch1 := .failure, consent := none, fetch2 := .failure } })
        "C1" [] [] none none).result
      = (getBalancesFull (fun b => b = "vbank")
          (fun _ => { token := some "t",
                      fetch1 := .ok (.obj [("data", .obj [("account",
                        .arr [.obj [("accountId", .str "A1")]])])]),
                      consent := none, fetch2 := .failure })
          (fun _ => { token := none, preConsent := none,
                      perAccount := fun _ =>
                        { fetch1 := .failure, consent := none, fetch2 := .failure } })
          "C1" [] [] none none).real :=
  (getBalances_placeholder_only_without_live_data (fun b => b = "vbank")
      (fun _ => { token := some "t",
                  fetch1 := .ok (.obj [("data", .obj [("account",
                    .arr [.obj [("accountId", .str "A1")]])])]),
                  consent := none, fetch2 := .failure })
      (fun _ => { token := none, preConsent := none,
                  perAccount := fun _ =>
                    { fetch1 := .failure, consent := none, fetch2 := .failure } })
      "C1" [] [] none none).2 (by decide)

/-- C2: evaluation of the end-to-end scenario at the failing input: client
"C1" has one active linked account for bank "vbank" and no bank has
credentials. `get_accounts` returns exactly one synthesized vbank account
as the claim states; but `get_balances` returns the empty list instead of
one placeholder balance — the demo account returned by `get_accounts`
makes the `has_real_accounts_from_api = len(all_accounts) > 0` test
(aggregation.py 591) true even though no account came from a live API,
contradicting the code's own comment "we have NO real accounts from API
(API returned 0 accounts)" — and `AggregationService.get_transactions`
returns the empty list, having no placeholder generation at all (the
5-transaction demo set lives only in the HTTP router, banks.py 228-247,
and is likewise defeated there by the demo account). -/
theorem end_to_end_linked_vbank_no_credentials :
    (getAccountsFull (fun _ => false)
        (fun _ => { token := none, fetch1 := .failure, consent := none, fetch2 := .failure })
        "C1" [mkLinkedAccount "vbank" "40800001" none (some "My vbank") "2026-01-01"]
        [] none).accounts
      = [{ account_id := .str "40800001", bank := "vbank", currency := .str "RUB",
           account_type := .str "current", nickname := .str "My vbank", servicer := .null }]
    ∧ (getBalancesFull (fun _ => false)
        (fun _ => { token := none, fetch1 := .failure, consent := none, fetch2 := .failure })
        (fun _ => { token := none, preConsent := none,
                    perAccount := fun _ =>
                      { fetch1 := .failure, consent := none, fetch2 := .failure } })
        "C1" [mkLinkedAccount "vbank" "40800001" none (some "My vbank") "2026-01-01"]
        [] none none).result = []
    ∧ (getTransactionsFull (fun _ => false)
        (fun _ => { token := none, fetch1 := .failure, consent := none, fetch2 := .failure })
        (fun _ => { token := none,
                    perAccount := fun _ =>
                      { fetch1 := .failure, consent := none, fetch2 := .failure } })
        "C1" [mkLinkedAccount "vbank" "40800001" none (some "My vbank") "2026-01-01"]
        [] none none).result = [] := by
  refine ⟨by decide, by decide, by decide⟩

theorem consentResult_eq_some (raw : Option Json) (clientId bank : String)
    (store : ConsentStore) (resp : Json) (store1 : ConsentStore)
    (h : consentResult raw clientId bank store = (some resp, store1)) :
    ∃ kvs, raw = some (.obj kvs) ∧ resp = .obj (alSet kvs "bank" (.str bank)) := by
  cases raw with
  | none => simp [consentResult] at h
  | some j =>
    cases j with
    | obj kvs =>
      refine ⟨kvs, rfl, ?_⟩
      simp [consentResult] at h
      exact h.1.symm
    | null => simp [consentResult] at h
    | bool b => simp [consentResult] at h
    | str v => simp [consentResult] at h
    | num n => simp [consentResult] at h
    | arr xs => simp [consentResult] at h

theorem bankAccounts_consent_counts (hasCreds : Bool) (s : AccountsScript) (clientId : String)
    (store : ConsentStore) (bank : String) :
    ((bankAccounts hasCreds s clientId store bank).2.2.countP Ev.isConsentReq) ≤ 1
      ∧ ((bankAccounts hasCreds s clientId store bank).2.2.countP Ev.isFetchAcc) ≤ 2 := by
  cases hasCreds with
  | false => simp [bankAccounts]
  | true =>
    obtain ⟨t, f1, cns, f2⟩ := s
    cases t with
    | none => simp [bankAccounts, Ev.isConsentReq, Ev.isFetchAcc]
    | some tok =>
      cases f1 with
      | ok resp => simp [bankAccounts, Ev.isConsentReq, Ev.isFetchAcc]
      | failure => simp [bankAccounts, Ev.isConsentReq, Ev.isFetchAcc]
      | consentRequired =>
        rcases hcr : consentResult cns clientId bank store with ⟨o, store1⟩
        cases o with
        | none => simp [bankAccounts, hcr, Ev.isConsentReq, Ev.isFetchAcc]
        | some resp =>
          by_cases ha : consentAutoApproved resp
          · cases f2 <;> simp [bankAccounts, hcr, ha, Ev.isConsentReq, Ev.isFetchAcc]
          · simp [bankAccounts, hcr, ha, Ev.isConsentReq, Ev.isFetchAcc]

theorem fetchBalancesForAccount_consent_counts (rs : RetryScript) (clientId bank : String)
    (accId : Json) (consentId : Json) (store : ConsentStore) :
    ((fetchBalancesForAccount rs clientId bank accId consentId store).2.2.2.countP
        Ev.isConsentReq) ≤ 1
      ∧ ((fetchBalancesForAccount rs clientId bank accId consentId store).2.2.2.countP
        Ev.isFetchBal) ≤ 2 := by
  obtain ⟨f1, cns, f2⟩ := rs
  cases f1 with
  | ok resp => simp [fetchBalancesForAccount, Ev.isConsentReq, Ev.isFetchBal]
  | failure => simp [fetchBalancesForAccount, Ev.isConsentReq, Ev.isFetchBal]
  | consentRequired =>
    by_cases ht : consentId.truthy
    · simp [fetchBalancesForAccount, ht, Ev.isConsentReq, Ev.isFetchBal]
    · rcases hcr : consentResult cns clientId bank store with ⟨o, store1⟩
      cases o with
      | none => simp [fetchBalancesForAccount, ht, hcr, Ev.isConsentReq, Ev.isFetchBal]
      | some resp =>
        by_cases hc : ((resp.get "consent_id").getD .null).truthy
        · cases f2 <;>
            simp [fetchBalancesForAccount, ht, hcr, hc, Ev.isConsentReq, Ev.isFetchBal]
        · simp [fetchBalancesForAccount, ht, hcr, hc, Ev.isConsentReq, Ev.isFetchBal]

theorem balAccLoop_consent_counts (sc : Json → RetryScript) (clientId bank : String) :
    ∀ (accIds : List Json) (cid : Json) (store : ConsentStore),
      ((balAccLoop sc clientId bank accIds (cid, store)).2.2.2.countP Ev.isConsentReq)
          ≤ accIds.length
        ∧ ((balAccLoop sc clientId bank accIds (cid, store)).2.2.2.countP Ev.isFetchBal)
          ≤ 2 * accIds.length := by
  intro accIds
  induction accIds with
  | nil => intro cid store; simp [balAccLoop]
  | cons a rest ih =>
    intro cid store
    simp only [balAccLoop]
    have h1 := fetchBalancesForAccount_consent_counts (sc a) clientId bank a cid store
    have h2 := ih (fetchBalancesForAccount (sc a) clientId bank a cid store).2.1
      (fetchBalancesForAccount (sc a) clientId bank a cid store).2.2.1
    constructor
    · rw [List.countP_append]
      simp only [List.length_cons]
      omega
    · rw [List.countP_append]
      simp only [List.length_cons]
      omega

theorem bankBalances_consent_counts (hasCreds : Bool) (s : BalancesScript)
    (clientId : String) (store : ConsentStore) (bank : String) (accIds : List Json) :
    ((bankBalances hasCreds s clientId store bank accIds).2.2.countP Ev.isConsentReq)
        ≤ 1 + accIds.length
      ∧ ((bankBalances hasCreds s clientId store bank accIds).2.2.countP Ev.isFetchBal)
        ≤ 2 * accIds.length := by
  cases hasCreds with
  | false => simp [bankBalances]
  | true =>
    obtain ⟨t, pre, pa⟩ := s
    cases t with
    | none => simp [bankBalances, Ev.isConsentReq, Ev.isFetchBal]
    | some tok =>
      simp only [bankBalances]
      by_cases hcid : ((getConsentId store clientId bank).getD .null).truthy
      · have hl := balAccLoop_consent_counts pa clientId bank accIds
          ((getConsentId store clientId bank).getD .null) store
        simp only [hcid, if_true, List.countP_append, List.countP_cons, List.countP_nil]
        simp [Ev.isConsentReq, Ev.isFetchBal]
        constructor
        · omega
        · omega
      · rcases hcr : consentResult pre clientId bank store with ⟨o, store1⟩
        cases o with
        | none =>
          have hl := balAccLoop_consent_counts pa clientId bank accIds
            ((getConsentId store clientId bank).getD .null) store1
          simp only [hcid, if_false, hcr, List.countP_append, List.countP_cons,
            List.countP_nil, Bool.false_eq_true]
          simp [Ev.isConsentReq, Ev.isFetchBal]
          constructor
          · omega
          · omega
        | some resp =>
          have hl := balAccLoop_consent_counts pa clientId bank accIds
            ((resp.get "consent_id").getD .null) store1
          simp only [hcid, if_false, hcr, List.countP_append, List.countP_cons,
            List.countP_nil, Bool.false_eq_true]
          simp [Ev.isConsentReq, Ev.isFetchBal]
          constructor
          · omega
          · omega

theorem bankAccounts_retry_needs_auto_approval (hasCreds : Bool) (s : AccountsScript)
    (clientId : String) (store : ConsentStore) (bank : String)
    (h : ((bankAccounts hasCreds s clientId store bank).2.2.countP Ev.isFetchAcc) = 2) :
    ∃ kvs, s.consent = some (.obj kvs)
      ∧ consentAutoApproved (.obj (alSet kvs "bank" (.str bank))) = true := by
  cases hasCreds with
  | false => simp [bankAccounts] at h
  | true =>
    obtain ⟨t, f1, cns, f2⟩ := s
    cases t with
    | none => simp [bankAccounts, Ev.isFetchAcc] at h
    | some tok =>
      cases f1 with
      | ok resp => simp [bankAccounts, Ev.isFetchAcc] at h
      | failure => simp [bankAccounts, Ev.isFetchAcc] at h
      | consentRequired =>
        rcases hcr : consentResult cns clientId bank store with ⟨o, store1⟩
        cases o with
        | none => simp [bankAccounts, hcr, Ev.isFetchAcc] at h
        | some resp =>
          by_cases ha : consentAutoApproved resp
          · obtain ⟨kvs, hraw, hresp⟩ :=
              consentResult_eq_some cns clientId bank store resp store1 hcr
            exact ⟨kvs, hraw, by rw [← hresp]; exact ha⟩
          · simp [bankAccounts, hcr, ha, Ev.isFetchAcc] at h

/-- C3 amended: consent negotiation never loops. A per-bank `get_accounts`
call issues at most one consent request and at most two accounts fetches,
and it performs the second (retry) fetch only when the consent response is
a mapping that is approved with a truthy consent id and a truthy
auto-approved flag. A per-account balances fetch issues at most one
consent request and two fetches (the retry gated on the response carrying
a truthy consent id, with no status check). A per-bank `get_balances` call
over n accounts issues at most 1 + n consent requests — one optional
up-front request when no consent id is stored (aggregation.py 476-488)
plus at most one per account — and at most 2n balance fetches. -/
theorem consent_negotiation_bounded :
    (∀ (hasCreds : Bool) (s : AccountsScript) (clientId : String) (store : ConsentStore)
        (bank : String),
        ((bankAccounts hasCreds s clientId store bank).2.2.countP Ev.isConsentReq) ≤ 1
          ∧ ((bankAccounts hasCreds s clientId store bank).2.2.countP Ev.isFetchAcc) ≤ 2)
    ∧ (∀ (rs : RetryScript) (clientId bank : String) (accId consentId : Json)
        (store : ConsentStore),
        ((fetchBalancesForAccount rs clientId bank accId consentId store).2.2.2.countP
            Ev.isConsentReq) ≤ 1
          ∧ ((fetchBalancesForAccount rs clientId bank accId consentId store).2.2.2.countP
            Ev.isFetchBal) ≤ 2)
    ∧ (∀ (hasCreds : Bool) (s : BalancesScript) (clientId : String) (store : ConsentStore)
        (bank : String) (accIds : List Json),
        ((bankBalances hasCreds s clientId store bank accIds).2.2.countP Ev.isConsentReq)
            ≤ 1 + accIds.length
          ∧ ((bankBalances hasCreds s clientId store bank accIds).2.2.countP Ev.isFetchBal)
            ≤ 2 * accIds.length)
    ∧ (∀ (hasCreds : Bool) (s : AccountsScript) (clientId : String) (store : ConsentStore)
        (bank : String),
        ((bankAccounts hasCreds s clientId store bank).2.2.countP Ev.isFetchAcc) = 2 →
        ∃ kvs, s.consent = some (.obj kvs)
          ∧ consentAutoApproved (.obj (alSet kvs "bank" (.str bank))) = true) :=
  ⟨fun hasCreds s clientId store bank => bankAccounts_consent_counts hasCreds s clientId store bank,
   fun rs clientId bank accId consentId store =>
     fetchBalancesForAccount_consent_counts rs clientId bank accId consentId store,
   fun hasCreds s clientId store bank accIds =>
     bankBalances_consent_counts hasCreds s clientId store bank accIds,
   fun hasCreds s clientId store bank h =>
     bankAccounts_retry_needs_auto_approval hasCreds s clientId store bank h⟩

/-- C3 witness: the retry-gating clause applied to a script whose consent
response is auto-approved, making the fetch count equal 2. -/
theorem consent_negotiation_bounded_witness :
    ∃ kvs, (AccountsScript.consent
        { token := some "t", fetch1 := .consentRequired,
          consent := some (.obj [("status", .str "approved"), ("consent_id", .str "X"),
            ("auto_approved", .bool true)]),
          fetch2 := .failure }) = some (.obj kvs)
      ∧ consentAutoApproved (.obj (alSet kvs "bank" (.str "vbank"))) = true :=
  consent_negotiation_bounded.2.2.2 true
    { token := some "t", fetch1 := .consentRequired,
      consent := some (.obj [("status", .str "approved"), ("consent_id", .str "X"),
        ("auto_approved", .bool true)]),
      fetch2 := .failure }
    "C1" [] "vbank" (by decide)

/-- C3 counterexample: the claim says a logical per-bank data-fetch call
issues at most one consent request. In a single per-bank `get_balances`
call with one account — no stored consent id, the consent endpoint
answering "pending", and the gateway raising consent-required on every
fetch — the orchestrator issues two consent requests: the up-front one of
aggregation.py 476-488 and the in-handler one of aggregation.py 533-539. -/
theorem two_consent_requests_in_one_balances_call :
    ((getBalancesFull (fun b => b = "vbank")
        (fun _ => { token := none, fetch1 := .failure, consent := none, fetch2 := .failure })
        (fun _ => { token := some "tok",
                    preConsent := some (.obj [("status", .str "pending"),
                      ("request_id", .str "R1")]),
                    perAccount := fun _ =>
                      { fetch1 := .consentRequired,
                        consent := some (.obj [("status", .str "pending"),
                          ("request_id", .str "R1")]),
                        fetch2 := .failure } })
        "C1" [mkLinkedAccount "vbank" "40800001" none (some "A") "2026-01-01"]
        [] none none).events.countP
      (fun e => e = Ev.consentReq "vbank")) = 2 := by decide
